import Mathlib

/-!
Verification of the bboni sensor / scoring subsystems.

Shallow embedding of `src/sensor/bboni_ble.py` (class `BboniSensor`) and
`src/game/utils/cv_scoring.py` (classes `CircleSimilarityScorer` and
`ShapeSimilarityScorer`).

Modelling conventions:
* Python ints are `ℤ`; Python floats are `ℝ` (exact real arithmetic), except
  where the values stay rational by construction (the EMA filter state, the
  shape scorer's pixel counting), where `ℚ` is used.
* The BLE notification callback, `calibrate`, `get_shake_intensity` and
  `get_tilt_angle` mutate the `BboniSensor` object; they are embedded as
  explicit state transformers over a `SensorState` record.
* `calibrate`'s sampling loop reads `get_raw_imu_data()` once per iteration;
  the raw data is overwritten concurrently by the BLE notification thread.
  The embedding therefore takes the list `obs` of raw IMU readings the loop
  observes (one per iteration, so `obs.length` plays the role of the
  `samples` argument); the final neutral-angle computation reads the state's
  current raw data.
* Calls into external libraries (`cv2`, `numpy` contour machinery) are not
  code of this repository; they are modelled as oracle parameters, except
  `np.fft.fft` which is embedded exactly as the discrete Fourier transform,
  and `cv2.dilate` / pixel counting which are embedded exactly on pixel sets.
-/

namespace Bboni

/-- IMU record: accelerometer and gyroscope axes in LSB plus a timestamp
(`IMUData` in `bboni_ble.py`). -/
structure IMU where
  ax : ℤ
  ay : ℤ
  az : ℤ
  gx : ℤ
  gy : ℤ
  gz : ℤ
  timestamp : ℤ
deriving DecidableEq

/-- The all-zero IMU record, `IMUData()` with every field defaulted. -/
def IMU.zero : IMU := ⟨0, 0, 0, 0, 0, 0, 0⟩

/-- Mutable state of a `BboniSensor` object: connection flag, calibrated and
raw IMU data, calibration offsets, shake-estimator state, tilt caches and the
EMA filter state. -/
structure SensorState where
  isConnected : Bool
  imu : IMU
  rawImu : IMU
  calibrationOffset : IMU
  prevAccel : Option (ℤ × ℤ × ℤ)
  deltaBuffer : List ℝ
  lastIntensity : ℝ
  quietCount : ℕ
  neutralRoll : ℝ
  neutralPitch : ℝ
  lastRawRoll : Option ℝ
  lastRawPitch : Option ℝ
  lastValidTilt : ℝ × ℝ
  filteredAccel : ℚ × ℚ × ℚ
  emaInitialized : Bool

/-- Decode two bytes as a little-endian signed 16-bit integer, as one lane of
`struct.unpack('<3h', ...)` does. -/
def decodeI16 (lo hi : ℕ) : ℤ :=
  let v : ℤ := (lo : ℤ) + 256 * (hi : ℤ)
  if 32768 ≤ v then v - 65536 else v

/-- Decode the first six bytes of a payload slice as three little-endian
signed 16-bit integers (`struct.unpack('<3h', ...)`). -/
def decode3h (l : List ℕ) : ℤ × ℤ × ℤ :=
  (decodeI16 (l.getD 0 0) (l.getD 1 0),
   decodeI16 (l.getD 2 0) (l.getD 3 0),
   decodeI16 (l.getD 4 0) (l.getD 5 0))

/-- Decode the first four bytes of a payload slice as a little-endian
unsigned 32-bit integer (`struct.unpack('<I', ...)`). -/
def decodeU32 (l : List ℕ) : ℤ :=
  (l.getD 0 0 : ℤ) + 256 * (l.getD 1 0 : ℤ) + 65536 * (l.getD 2 0 : ℤ)
    + 16777216 * (l.getD 3 0 : ℤ)

/-- The handler's data-validation predicate: some axis value exceeds
`MAX_VALID_LSB = 32768` in magnitude (`any(abs(v) > MAX_VALID_LSB ...)`). -/
def outOfRange (v : ℤ × ℤ × ℤ) : Bool :=
  decide (32768 < |v.1| ∨ 32768 < |v.2.1| ∨ 32768 < |v.2.2|)

/-- The EMA smoothing step `alpha * raw + (1 - alpha) * prev` with
`alpha = 0.15`. -/
def emaStep (raw : ℤ) (prev : ℚ) : ℚ :=
  (0.15 : ℚ) * (raw : ℚ) + (1 - (0.15 : ℚ)) * prev

/-- Python `int()` on a rational: truncation toward zero. -/
def pyTruncQ (x : ℚ) : ℤ := if x < 0 then ⌈x⌉ else ⌊x⌋

/-- Accelerometer branch of `_notification_handler`: store the raw values,
run the EMA filter (seeding it on the first sample), then apply the
calibration offset to the smoothed values. -/
def accelUpdate (s : SensorState) (v : ℤ × ℤ × ℤ) (ts : ℤ) : SensorState :=
  let f : ℚ × ℚ × ℚ :=
    if s.emaInitialized = false then ((v.1 : ℚ), (v.2.1 : ℚ), (v.2.2 : ℚ))
    else (emaStep v.1 s.filteredAccel.1,
          emaStep v.2.1 s.filteredAccel.2.1,
          emaStep v.2.2 s.filteredAccel.2.2)
  { s with
    rawImu := { s.rawImu with ax := v.1, ay := v.2.1, az := v.2.2, timestamp := ts }
    filteredAccel := f
    emaInitialized := true
    imu := { s.imu with
      ax := pyTruncQ f.1 - s.calibrationOffset.ax
      ay := pyTruncQ f.2.1 - s.calibrationOffset.ay
      az := pyTruncQ f.2.2 - s.calibrationOffset.az
      timestamp := ts } }

/-- Gyroscope branch of `_notification_handler`: store the raw values and
apply the calibration offset directly (no EMA, no raw-timestamp update). -/
def gyroUpdate (s : SensorState) (v : ℤ × ℤ × ℤ) (ts : ℤ) : SensorState :=
  { s with
    rawImu := { s.rawImu with gx := v.1, gy := v.2.1, gz := v.2.2 }
    imu := { s.imu with
      gx := v.1 - s.calibrationOffset.gx
      gy := v.2.1 - s.calibrationOffset.gy
      gz := v.2.2 - s.calibrationOffset.gz
      timestamp := ts } }

/-- `BboniSensor._notification_handler`.  `isAccel` models the
`"1601" in sender_uuid` test; `data` is the payload byte list.  Too-short
payloads and payloads with an out-of-range axis are dropped (state
unchanged). -/
def notificationHandler (s : SensorState) (isAccel : Bool) (data : List ℕ) :
    SensorState :=
  if isAccel then
    if 11 ≤ data.length then
      let v := decode3h (data.drop 1)
      let ts := decodeU32 (data.drop 7)
      if outOfRange v then s else accelUpdate s v ts
    else s
  else
    if 10 ≤ data.length then
      let v := decode3h data
      let ts := decodeU32 (data.drop 6)
      if outOfRange v then s else gyroUpdate s v ts
    else s

/-- The three-axis squared magnitude of the accelerometer reading, in LSB². -/
def IMU.accelSq (d : IMU) : ℤ := d.ax ^ 2 + d.ay ^ 2 + d.az ^ 2

/-- The three-axis accelerometer vector magnitude
`(ax**2 + ay**2 + az**2) ** 0.5` used throughout the sensor code. -/
noncomputable def IMU.accelMag (d : IMU) : ℝ := Real.sqrt ((d.accelSq : ℤ) : ℝ)

/-- The plausibility band of `calibrate`: `1500 < total < 2600` on the
accelerometer magnitude (roughly 0.73 g – 1.27 g at 2048 LSB/g). -/
noncomputable def inBand (d : IMU) : Prop := 1500 < d.accelMag ∧ d.accelMag < 2600

noncomputable instance (d : IMU) : Decidable (inBand d) := by
  unfold inBand; infer_instance

/-- The claim-side statement of the acceptance test, on the squared
magnitude in integers (`1500² = 2250000`, `2600² = 6760000`), which is
decidable by computation. -/
def inBandSq (d : IMU) : Bool :=
  decide (2250000 < d.accelSq ∧ d.accelSq < 6760000)

/-- Python's `sorted(l)[len(l) // 2]` on an integer list — the (upper) median
used by `calibrate`; any ascending sort of an integer list yields the same
list, so insertion sort is used.  Defined as 0 on the empty list (the code
never indexes an empty list: it checks emptiness first). -/
def sortedMid (l : List ℤ) (n : ℕ) : ℤ :=
  (l.insertionSort (· ≤ ·)).getD (n / 2) 0

/-- `BboniSensor._calculate_raw_tilt_angle`, as a function of the raw IMU
data it reads: returns the sentinel `(0, 0)` when the accelerometer magnitude
is below 1000 LSB, otherwise `atan2`-based roll and pitch in degrees.
`atan2 y x` is `Complex.arg (x + y·i)`, which matches `math.atan2` on all of
ℝ². -/
noncomputable def rawTiltOf (d : IMU) : ℝ × ℝ :=
  if d.accelMag < 1000 then (0, 0)
  else
    let ax : ℝ := (d.ax : ℝ) / 2048
    let ay : ℝ := (d.ay : ℝ) / 2048
    let az0 : ℝ := (d.az : ℝ) / 2048
    let az : ℝ := if az0 = 0 then 0.001 else az0
    (Complex.arg (az + ax * Complex.I) * 180 / Real.pi,
     Complex.arg (az + ay * Complex.I) * 180 / Real.pi)

/-- `BboniSensor.calibrate(samples, delay)`.  `obs` is the list of raw IMU
readings observed during the sampling loop (its length models `samples`; the
inter-sample `delay` has no effect on the state).  Fails immediately when the
session is not connected; otherwise resets the EMA filter and offsets,
collects plausible accelerometer samples and all gyroscope samples, sets each
axis offset to the median of its samples, clears the shake and tilt state and
stores the neutral tilt angles. -/
noncomputable def calibrate (s : SensorState) (obs : List IMU) :
    Bool × SensorState :=
  if s.isConnected = false then (false, s)
  else
    let accSamples := obs.filter (fun d => decide (inBand d))
    let n := accSamples.length
    let offA : ℤ × ℤ × ℤ :=
      if n = 0 then (0, 0, 0)
      else (sortedMid (accSamples.map IMU.ax) n,
            sortedMid (accSamples.map IMU.ay) n,
            sortedMid (accSamples.map IMU.az) n)
    let m := obs.length
    let offG : ℤ × ℤ × ℤ :=
      if m = 0 then (0, 0, 0)
      else (sortedMid (obs.map IMU.gx) m,
            sortedMid (obs.map IMU.gy) m,
            sortedMid (obs.map IMU.gz) m)
    let neutral := rawTiltOf s.rawImu
    (true,
     { s with
       emaInitialized := false
       filteredAccel := (0, 0, 0)
       calibrationOffset :=
         { ax := offA.1, ay := offA.2.1, az := offA.2.2
           gx := offG.1, gy := offG.2.1, gz := offG.2.2, timestamp := 0 }
       prevAccel := none
       deltaBuffer := []
       quietCount := 0
       lastRawRoll := none
       lastRawPitch := none
       lastValidTilt := (0, 0)
       neutralRoll := neutral.1
       neutralPitch := neutral.2 })

/-- The tail of `get_shake_intensity` shared by all non-early-return paths:
append the delta to the buffer, cap the buffer at 20 entries (popping the
oldest), average, apply the dead zone at 0.3 g, otherwise rescale
`(avg - 0.3) / 0.3` capped at 1, caching the result.  `shakeCore` is the
part after the buffer update, on the capped buffer. -/
noncomputable def shakeCore (s : SensorState) (current : ℤ × ℤ × ℤ)
    (q : ℕ) (buf2 : List ℝ) : ℝ × SensorState :=
  if buf2.sum / (buf2.length : ℝ) < 0.3 then
    (0, { s with prevAccel := some current, quietCount := q,
                 deltaBuffer := buf2, lastIntensity := 0 })
  else
    (min 1 ((buf2.sum / (buf2.length : ℝ) - 0.3) / 0.3),
     { s with prevAccel := some current, quietCount := q,
              deltaBuffer := buf2,
              lastIntensity := min 1 ((buf2.sum / (buf2.length : ℝ) - 0.3) / 0.3) })

noncomputable def shakeFinish (s : SensorState) (current : ℤ × ℤ × ℤ)
    (dg : ℝ) (q : ℕ) (buf : List ℝ) : ℝ × SensorState :=
  shakeCore s current q
    (if 20 < (buf ++ [dg]).length then (buf ++ [dg]).drop 1 else buf ++ [dg])

/-- The Euclidean distance between the current and previous accelerometer
vectors, normalized to g units by 2048 LSB/g. -/
noncomputable def deltaGOf (c p : ℤ × ℤ × ℤ) : ℝ :=
  Real.sqrt ((((c.1 - p.1) ^ 2 + (c.2.1 - p.2.1) ^ 2
    + (c.2.2 - p.2.2) ^ 2 : ℤ) : ℝ)) / 2048

/-- The current raw accelerometer vector read by `get_shake_intensity`. -/
def currentAccel (s : SensorState) : ℤ × ℤ × ℤ :=
  (s.rawImu.ax, s.rawImu.ay, s.rawImu.az)

/-- `BboniSensor.get_shake_intensity`: validity gate (magnitude < 1000 LSB
returns 0), duplicate gate, outlier gate at 1.5 g, single-sample noise gate at
0.15 g with the 5-in-a-row quiet reset, then the sliding-average tail. -/
noncomputable def getShakeIntensity (s : SensorState) : ℝ × SensorState :=
  if s.rawImu.accelMag < 1000 then (0, s)
  else
    match s.prevAccel with
    | none => shakeFinish s (currentAccel s) 0 s.quietCount s.deltaBuffer
    | some p =>
      if currentAccel s = p then (s.lastIntensity, s)
      else
        if 1.5 < deltaGOf (currentAccel s) p then
          (s.lastIntensity, { s with prevAccel := some (currentAccel s) })
        else if deltaGOf (currentAccel s) p < 0.15 then
          if 5 ≤ s.quietCount + 1 then shakeFinish s (currentAccel s) 0 0 []
          else shakeFinish s (currentAccel s) 0 (s.quietCount + 1) s.deltaBuffer
        else shakeFinish s (currentAccel s) (deltaGOf (currentAccel s) p) 0
          s.deltaBuffer

/-- The first wrap loop of `_angle_diff`: `while diff > 180: diff -= 360`. -/
noncomputable def wrapHigh (x : ℝ) : ℝ :=
  if h : 180 < x then wrapHigh (x - 360) else x
termination_by (⌈(x - 180) / 360⌉).toNat
decreasing_by
  have h2 : (1 : ℤ) ≤ ⌈(x - 180) / 360⌉ := by
    exact_mod_cast Int.le_ceil_iff.mpr (by push_cast; linarith)
  have h3 : ⌈(x - 360 - 180) / 360⌉ = ⌈(x - 180) / 360⌉ - 1 := by
    rw [show (x - 360 - 180) / 360 = (x - 180) / 360 - 1 by ring]
    exact Int.ceil_sub_one _
  omega

/-- The second wrap loop of `_angle_diff`: `while diff < -180: diff += 360`. -/
noncomputable def wrapLow (x : ℝ) : ℝ :=
  if h : x < -180 then wrapLow (x + 360) else x
termination_by (⌈(-180 - x) / 360⌉).toNat
decreasing_by
  have h2 : (1 : ℤ) ≤ ⌈(-180 - x) / 360⌉ := by
    exact_mod_cast Int.le_ceil_iff.mpr (by push_cast; linarith)
  have h3 : ⌈(-180 - (x + 360)) / 360⌉ = ⌈(-180 - x) / 360⌉ - 1 := by
    rw [show (-180 - (x + 360)) / 360 = (-180 - x) / 360 - 1 by ring]
    exact Int.ceil_sub_one _
  omega

/-- `BboniSensor._angle_diff`: shortest angular difference via the two
sequential wrap loops. -/
noncomputable def angleDiff (a b : ℝ) : ℝ := wrapLow (wrapHigh (a - b))

/-- `BboniSensor.get_tilt_angle`: raw tilt, the `(0, 0)` sentinel fallback to
the cached last valid relative tilt, otherwise shortest-path differences from
the neutral angles, updating the cache. -/
noncomputable def getTiltAngle (s : SensorState) : (ℝ × ℝ) × SensorState :=
  let raw := rawTiltOf s.rawImu
  if raw.1 = 0 ∧ raw.2 = 0 then (s.lastValidTilt, s)
  else
    let rel := (angleDiff raw.1 s.neutralRoll, angleDiff raw.2 s.neutralPitch)
    (rel, { s with lastValidTilt := rel })

end Bboni

namespace CVScoring

/-- `np.clip(x, lo, hi)` on reals. -/
noncomputable def clipR (x lo hi : ℝ) : ℝ := min hi (max lo x)

/-- Python `int()` on a real: truncation toward zero. -/
noncomputable def pyTruncR (x : ℝ) : ℤ := if x < 0 then ⌈x⌉ else ⌊x⌋

/-- A binary image is its set of lit pixels (x, y). -/
abbrev Image := Finset (ℤ × ℤ)

/-- The square structuring-element offsets of an all-ones `(2r+1)×(2r+1)`
kernel. -/
def kernelOffsets (r : ℕ) : Finset (ℤ × ℤ) :=
  Finset.Icc (-(r : ℤ)) r ×ˢ Finset.Icc (-(r : ℤ)) r

/-- The pixel grid of a `width × height` canvas. -/
def canvas (w h : ℕ) : Finset (ℤ × ℤ) :=
  Finset.Icc 0 ((w : ℤ) - 1) ×ˢ Finset.Icc 0 ((h : ℤ) - 1)

/-- One morphological dilation by an all-ones square kernel of radius `r`,
clipped to the canvas (`cv2.dilate` with a single iteration). -/
def dilateOnce (w h : ℕ) (img : Image) (r : ℕ) : Image :=
  (img.biUnion (fun p => (kernelOffsets r).image
    (fun d => (p.1 + d.1, p.2 + d.2)))) ∩ canvas w h

/-- `cv2.dilate(img, kernel, iterations=n)` with a square all-ones kernel of
radius `r`. -/
def dilate (w h : ℕ) (img : Image) (r : ℕ) : ℕ → Image
  | 0 => img
  | n + 1 => dilateOnce w h (dilate w h img r n) r

end CVScoring

namespace CircleSimilarityScorer

open CVScoring

/-- Target-circle parameters of a `CircleSimilarityScorer` instance. -/
structure Target where
  centerX : ℤ
  centerY : ℤ
  radius : ℤ

/-- Results of the `cv2` contour machinery applied to the rasterized
trajectory, modelled as oracles: these are calls into OpenCV, not code of
this repository.  `none` models the `if not contours` (or `m00 == 0`) early
returns; `some` carries the quantity the scorer reads. -/
structure CVOracle where
  matchValue : List (ℤ × ℤ) → Option ℝ
  areaPerim : List (ℤ × ℤ) → Option (ℝ × ℝ)
  centroid : List (ℤ × ℤ) → Option (ℤ × ℤ)
  minEncRadius : List (ℤ × ℤ) → Option ℝ

/-- `calculate_hu_moment_score`: gate at 10 points, then
`clip(100·exp(-matchValue·10), 0, 100)` where `matchValue` is
`cv2.matchShapes` on the filled target and drawn contours. -/
noncomputable def calculate_hu_moment_score (cv : CVOracle)
    (points : List (ℤ × ℤ)) : ℝ :=
  if points.length < 10 then 0
  else
    match cv.matchValue points with
    | none => 0
    | some m => clipR (100 * Real.exp (-(m * 10))) 0 100

/-- `calculate_circularity_cv`: gate at 10 points, then
`clip(4π·area/perimeter²·100, 0, 100)` on the largest filled contour, with a
zero-perimeter guard. -/
noncomputable def calculate_circularity_cv (cv : CVOracle)
    (points : List (ℤ × ℤ)) : ℝ :=
  if points.length < 10 then 0
  else
    match cv.areaPerim points with
    | none => 0
    | some ap =>
      if ap.2 = 0 then 0
      else clipR (4 * Real.pi * ap.1 / ap.2 ^ 2 * 100) 0 100

/-- `calculate_center_distance_score`: gate at 3 points, then
`100·(1 − min(distance/target_radius, 1))` where `distance` is from the
drawn contour centroid (integer moments ratio) to the target center. -/
noncomputable def calculate_center_distance_score (cv : CVOracle) (t : Target)
    (points : List (ℤ × ℤ)) : ℝ :=
  if points.length < 3 then 0
  else
    match cv.centroid points with
    | none => 0
    | some c =>
      let distance := Real.sqrt ((((c.1 - t.centerX) ^ 2
        + (c.2 - t.centerY) ^ 2 : ℤ) : ℝ))
      100 * (1 - min (distance / (t.radius : ℝ)) 1)

/-- `calculate_radius_match_score`: gate at 3 points, then
`100·(1 − min(|r − R|/R, 1))` with `r` the minimal enclosing circle radius. -/
noncomputable def calculate_radius_match_score (cv : CVOracle) (t : Target)
    (points : List (ℤ × ℤ)) : ℝ :=
  if points.length < 3 then 0
  else
    match cv.minEncRadius points with
    | none => 0
    | some r =>
      100 * (1 - min (|r - (t.radius : ℝ)| / (t.radius : ℝ)) 1)

/-- One coefficient of `np.fft.fft` on a complex sequence:
`F[m] = Σ_k x_k · exp(−2πi·m·k/n)`. -/
noncomputable def dftCoeff (x : List ℂ) (m : ℕ) : ℂ :=
  ∑ k ∈ Finset.range x.length,
    x.getD k 0 * Complex.exp (-(2 * (Real.pi : ℂ) * Complex.I) * m * k
      / (x.length : ℂ))

/-- A trajectory point as the complex number `x + i·y`
(`points[:, 0] + 1j * points[:, 1]`). -/
noncomputable def toC (p : ℤ × ℤ) : ℂ := (p.1 : ℂ) + (p.2 : ℂ) * Complex.I

/-- `np.fft.fft` on a complex sequence, as the list of its DFT
coefficients. -/
noncomputable def fftList (z : List ℂ) : List ℂ :=
  (List.range z.length).map (dftCoeff z)

/-- The normalization steps of `_compute_fourier_descriptors`:
`fourier[0] = 0` for translation invariance, then division by
`|fourier[1]|` when it is positive, for scale invariance. -/
noncomputable def normalizeFourier (fl : List ℂ) : List ℂ :=
  if 0 < Complex.abs ((fl.set 0 0).getD 1 0)
  then (fl.set 0 0).map (· / (Complex.abs ((fl.set 0 0).getD 1 0) : ℂ))
  else fl.set 0 0

/-- `_compute_fourier_descriptors`: gate at 4 points; FFT of the complex
points; translation and scale normalization; magnitudes of
`fourier[1 : num_descriptors + 1]` (a numpy slice, hence clipped at the end
of the array) for rotation invariance. -/
noncomputable def compute_fourier_descriptors (points : List (ℤ × ℤ))
    (numDescriptors : ℕ) : Option (List ℝ) :=
  if points.length < 4 then none
  else
    some ((((normalizeFourier (fftList (points.map toC))).drop 1).take
      numDescriptors).map Complex.abs)

/-- `calculate_fourier_descriptor_score`: gate at 10 points, then the energy
concentration of the first 3 descriptors over the total descriptor energy
plus the `1e-6` regularizer, times 100, clipped to [0, 100]. -/
noncomputable def calculate_fourier_descriptor_score
    (points : List (ℤ × ℤ)) : ℝ :=
  if points.length < 10 then 0
  else
    match compute_fourier_descriptors points 10 with
    | none => 0
    | some fd =>
      let totalEnergy := (fd.map (fun d => d ^ 2)).sum + 1e-6
      let lowFreqEnergy := ((fd.take 3).map (fun d => d ^ 2)).sum
      clipR (lowFreqEnergy / totalEnergy * 100) 0 100

/-- The five weights of the circle scorer's weighted combination. -/
structure Weights where
  hu : ℝ
  circ : ℝ
  center : ℝ
  radius : ℝ
  fourier : ℝ

/-- The default weight dictionary of `get_combined_score`. -/
noncomputable def defaultWeights : Weights := ⟨0.30, 0.20, 0.20, 0.15, 0.15⟩

/-- `CircleSimilarityScorer.get_combined_score`: the five sub-scores and
their weighted total, truncated to an int. -/
noncomputable def get_combined_score (cv : CVOracle) (t : Target)
    (points : List (ℤ × ℤ)) (w : Weights) : ℤ × (ℝ × ℝ × ℝ × ℝ × ℝ) :=
  let s1 := calculate_hu_moment_score cv points
  let s2 := calculate_circularity_cv cv points
  let s3 := calculate_center_distance_score cv t points
  let s4 := calculate_radius_match_score cv t points
  let s5 := calculate_fourier_descriptor_score points
  let total := s1 * w.hu + s2 * w.circ + s3 * w.center + s4 * w.radius
    + s5 * w.fourier
  (pyTruncR total, (s1, s2, s3, s4, s5))

end CircleSimilarityScorer

namespace ShapeSimilarityScorer

open CVScoring

/-- `ShapeSimilarityScorer.points_to_image`: trajectories of fewer than 2
points render to the empty image; otherwise `cv2.polylines` rasterizes the
open polyline.  The rasterizer is an OpenCV call, passed as `raster`. -/
def points_to_image (raster : List (ℤ × ℤ) → Image)
    (points : List (ℤ × ℤ)) : Image :=
  if points.length < 2 then ∅ else raster points

/-- `calculate_iou`: target dilated by a 5×5 kernel twice, then
`100·|drawn ∩ target⁺| / |drawn ∪ target⁺|` with a zero-union guard. -/
def calculate_iou (w h : ℕ) (drawn target : Image) : ℚ :=
  let targetDilated := dilate w h target 2 2
  let intersection := (drawn ∩ targetDilated).card
  let union := (drawn ∪ targetDilated).card
  if union = 0 then 0 else (intersection : ℚ) / (union : ℚ) * 100

/-- `calculate_coverage`: drawn dilated by a 5×5 kernel once, then the
fraction of target pixels covered, capped at 1, times 100, with a
zero-target guard. -/
def calculate_coverage (w h : ℕ) (drawn target : Image) : ℚ :=
  let drawnDilated := dilate w h drawn 2 1
  let targetPixels := target.card
  if targetPixels = 0 then 0
  else
    let covered := (drawnDilated ∩ target).card
    min ((covered : ℚ) / (targetPixels : ℚ)) 1 * 100

/-- `calculate_precision`: target dilated by a 7×7 kernel three times, then
the fraction of drawn pixels on the dilated target, times 100, with a
zero-drawn guard. -/
def calculate_precision (w h : ℕ) (drawn target : Image) : ℚ :=
  let targetDilated := dilate w h target 3 3
  let drawnPixels := drawn.card
  if drawnPixels = 0 then 0
  else
    let onTarget := (drawn ∩ targetDilated).card
    (onTarget : ℚ) / (drawnPixels : ℚ) * 100

/-- The three weights of the shape scorer's weighted combination. -/
structure Weights where
  coverage : ℚ
  precisionW : ℚ
  iou : ℚ

/-- The default weight dictionary of the shape scorer's
`get_combined_score`. -/
def defaultWeights : Weights := ⟨0.35, 0.35, 0.30⟩

/-- `ShapeSimilarityScorer.get_combined_score`: ensure a target exists
(`create_target_h_image` when none was set — `hDefault` is that image),
rasterize the trajectory, compute the three sub-scores and their weighted
total, truncated to an int. -/
def get_combined_score (raster : List (ℤ × ℤ) → Image) (w h : ℕ)
    (targetOpt : Option Image) (hDefault : Image)
    (drawnPoints : List (ℤ × ℤ)) (wt : Weights) : ℤ × (ℚ × ℚ × ℚ) :=
  let target := targetOpt.getD hDefault
  let drawn := points_to_image raster drawnPoints
  let s1 := calculate_coverage w h drawn target
  let s2 := calculate_precision w h drawn target
  let s3 := calculate_iou w h drawn target
  let total := s1 * wt.coverage + s2 * wt.precisionW + s3 * wt.iou
  (Bboni.pyTruncQ total, (s1, s2, s3))

end ShapeSimilarityScorer

namespace Bboni

/-- The state of a freshly constructed `BboniSensor` (the `__init__`
defaults): disconnected, all-zero data, empty shake and tilt state. -/
def initState : SensorState where
  isConnected := false
  imu := IMU.zero
  rawImu := IMU.zero
  calibrationOffset := IMU.zero
  prevAccel := none
  deltaBuffer := []
  lastIntensity := 0
  quietCount := 0
  neutralRoll := 0
  neutralPitch := 0
  lastRawRoll := none
  lastRawPitch := none
  lastValidTilt := (0, 0)
  filteredAccel := (0, 0, 0)
  emaInitialized := false

/-- A sample 11-byte accelerometer payload: `0xff` header, axis bytes for
(1, 2, 3), then a 4-byte timestamp. -/
def data11 : List ℕ := [255, 1, 0, 2, 0, 3, 0, 4, 3, 2, 1]

/-- A sensor state holding a valid (1 g on the x axis) raw sample with no
previous shake sample recorded. -/
def shakeProbeState : SensorState :=
  { initState with rawImu := { IMU.zero with ax := 2048 } }

/-- A sensor state holding a perfectly flat valid raw sample (1 g on the z
axis), a nonzero stored neutral roll, and a cached last valid tilt of
(7, 7). -/
noncomputable def tiltProbeState : SensorState :=
  { initState with
    rawImu := { IMU.zero with az := 2048 }
    neutralRoll := 90
    lastValidTilt := (7, 7) }

/-- A sensor state holding a tilted valid raw sample (−1 g on the z axis,
device upside down). -/
def tiltValidProbe : SensorState :=
  { initState with rawImu := { IMU.zero with az := -2048 } }

end Bboni

namespace CircleSimilarityScorer

/-- A 12-point integer trajectory tracing the unit square's vertices three
times; its complex form is `k ↦ i^k`, whose DFT is concentrated entirely in
harmonic 3. -/
def pts12 : List (ℤ × ℤ) :=
  [(1, 0), (0, 1), (-1, 0), (0, -1), (1, 0), (0, 1), (-1, 0), (0, -1),
   (1, 0), (0, 1), (-1, 0), (0, -1)]

/-- Spec-side reading of the Fourier sub-score, following the claim's words
literally: 100 times the fraction of the total spectral energy of the
normalized Fourier descriptors that lies in the lowest 3 non-trivial
harmonics, clipped to [0, 100]; 0 below 10 points. -/
noncomputable def specFourierConcentration (points : List (ℤ × ℤ)) : ℝ :=
  if points.length < 10 then 0
  else
    match compute_fourier_descriptors points 10 with
    | none => 0
    | some fd =>
      CVScoring.clipR
        (100 * ((fd.take 3).map (fun d => d ^ 2)).sum
          / (fd.map (fun d => d ^ 2)).sum) 0 100

/-- Spec-side reading of the Fourier sub-score amended with the code's
`1e-6` denominator regularizer. -/
noncomputable def specFourierConcentrationEps (points : List (ℤ × ℤ)) : ℝ :=
  if points.length < 10 then 0
  else
    match compute_fourier_descriptors points 10 with
    | none => 0
    | some fd =>
      CVScoring.clipR
        (100 * ((fd.take 3).map (fun d => d ^ 2)).sum
          / ((fd.map (fun d => d ^ 2)).sum + 1e-6)) 0 100

/-- The trivial oracle: `cv2` finds no contours on any input. -/
def emptyOracle : CVOracle := ⟨fun _ => none, fun _ => none, fun _ => none,
  fun _ => none⟩

end CircleSimilarityScorer

section Theorems

open Bboni CVScoring

/-- Dilation of the empty image is empty, for any kernel and iteration
count. -/
lemma dilate_empty (w h r : ℕ) : ∀ n, dilate w h ∅ r n = ∅ := by
  intro n
  induction n with
  | zero => rfl
  | succ n ih => simp [dilate, ih, dilateOnce]

/-- Coverage of any target by an empty drawing is 0. -/
lemma coverage_empty_drawn (w h : ℕ) (target : Image) :
    ShapeSimilarityScorer.calculate_coverage w h ∅ target = 0 := by
  unfold ShapeSimilarityScorer.calculate_coverage
  rw [dilate_empty]
  simp

/-- Precision of an empty drawing is 0. -/
lemma precision_empty_drawn (w h : ℕ) (target : Image) :
    ShapeSimilarityScorer.calculate_precision w h ∅ target = 0 := by
  unfold ShapeSimilarityScorer.calculate_precision
  simp

/-- IoU of an empty drawing with any target is 0. -/
lemma iou_empty_drawn (w h : ℕ) (target : Image) :
    ShapeSimilarityScorer.calculate_iou w h ∅ target = 0 := by
  unfold ShapeSimilarityScorer.calculate_iou
  simp

/-- C1: for every trajectory of length 0 or 1, both scorers return composite
score 0 and a breakdown in which every sub-score equals 0, for any oracle
results, target, canvas, rasterizer and weights. -/
theorem c1_trivial_trajectory_scores_zero
    (cv : CircleSimilarityScorer.CVOracle) (t : CircleSimilarityScorer.Target)
    (cw : CircleSimilarityScorer.Weights)
    (raster : List (ℤ × ℤ) → Image) (w h : ℕ)
    (targetOpt : Option Image) (hDefault : Image)
    (sw : ShapeSimilarityScorer.Weights)
    (points : List (ℤ × ℤ)) (hlen : points.length ≤ 1) :
    CircleSimilarityScorer.get_combined_score cv t points cw
      = (0, (0, 0, 0, 0, 0)) ∧
    ShapeSimilarityScorer.get_combined_score raster w h targetOpt hDefault
      points sw = (0, (0, 0, 0)) := by
  constructor
  · have h10 : points.length < 10 := by omega
    have h3 : points.length < 3 := by omega
    unfold CircleSimilarityScorer.get_combined_score
      CircleSimilarityScorer.calculate_hu_moment_score
      CircleSimilarityScorer.calculate_circularity_cv
      CircleSimilarityScorer.calculate_center_distance_score
      CircleSimilarityScorer.calculate_radius_match_score
      CircleSimilarityScorer.calculate_fourier_descriptor_score
    simp [h10, h3, pyTruncR]
  · have h2 : points.length < 2 := by omega
    unfold ShapeSimilarityScorer.get_combined_score
      ShapeSimilarityScorer.points_to_image
    simp [h2, coverage_empty_drawn, precision_empty_drawn, iou_empty_drawn,
      pyTruncQ]

/-- C1 witness: the empty trajectory on concrete scorers. -/
theorem c1_trivial_trajectory_scores_zero_witness :
    CircleSimilarityScorer.get_combined_score
      CircleSimilarityScorer.emptyOracle ⟨0, 0, 1⟩ []
      CircleSimilarityScorer.defaultWeights = (0, (0, 0, 0, 0, 0)) ∧
    ShapeSimilarityScorer.get_combined_score (fun _ => ∅) 8 6 none ∅ []
      ShapeSimilarityScorer.defaultWeights = (0, (0, 0, 0)) :=
  c1_trivial_trajectory_scores_zero _ _ _ _ _ _ _ _ _ [] (by decide)

/-- C2: `calibrate` returns `false` exactly when the session is not
connected at entry, in which case it leaves the whole sensor state
unchanged; when connected it returns `true` for every observation list,
including ones in which no accelerometer sample passes the plausibility
filter. -/
theorem c2_calibrate_connexion_contract (s : SensorState) (obs : List IMU) :
    (calibrate s obs).1 = s.isConnected ∧
    (s.isConnected = false → (calibrate s obs).2 = s) := by
  unfold calibrate
  cases hc : s.isConnected with
  | false => simp [hc]
  | true => simp [hc]

/-- C2 witness: calling `calibrate` on the freshly constructed, disconnected
sensor returns `false` and changes nothing. -/
theorem c2_calibrate_connexion_contract_witness :
    (calibrate initState []).1 = false ∧ (calibrate initState []).2 = initState := by
  have h := c2_calibrate_connexion_contract initState []
  exact ⟨h.1, h.2 rfl⟩

/-- The first wrap loop never exits above 180. -/
lemma wrapHigh_le (x : ℝ) : wrapHigh x ≤ 180 := by
  induction x using wrapHigh.induct with
  | case1 x h ih => rw [wrapHigh, dif_pos h]; exact ih
  | case2 x h => rw [wrapHigh, dif_neg h]; linarith [not_lt.mp h]

/-- The first wrap loop only subtracts whole multiples of 360. -/
lemma wrapHigh_congr (x : ℝ) : ∃ k : ℤ, wrapHigh x = x - 360 * k := by
  induction x using wrapHigh.induct with
  | case1 x h ih =>
    obtain ⟨k, hk⟩ := ih
    exact ⟨k + 1, by rw [wrapHigh, dif_pos h, hk]; push_cast; ring⟩
  | case2 x h => exact ⟨0, by rw [wrapHigh, dif_neg h]; simp⟩

/-- The second wrap loop never exits below −180. -/
lemma wrapLow_ge (x : ℝ) : -180 ≤ wrapLow x := by
  induction x using wrapLow.induct with
  | case1 x h ih => rw [wrapLow, dif_pos h]; exact ih
  | case2 x h => rw [wrapLow, dif_neg h]; linarith [not_lt.mp h]

/-- The second wrap loop preserves an upper bound of 180. -/
lemma wrapLow_le (x : ℝ) : x ≤ 180 → wrapLow x ≤ 180 := by
  induction x using wrapLow.induct with
  | case1 x h ih =>
    intro _
    rw [wrapLow, dif_pos h]
    exact ih (by linarith)
  | case2 x h => intro hx; rw [wrapLow, dif_neg h]; exact hx

/-- The second wrap loop only adds whole multiples of 360. -/
lemma wrapLow_congr (x : ℝ) : ∃ k : ℤ, wrapLow x = x + 360 * k := by
  induction x using wrapLow.induct with
  | case1 x h ih =>
    obtain ⟨k, hk⟩ := ih
    exact ⟨k + 1, by rw [wrapLow, dif_pos h, hk]; push_cast; ring⟩
  | case2 x h => exact ⟨0, by rw [wrapLow, dif_neg h]; simp⟩

/-- C6: `_angle_diff` returns a value congruent to `a − b` modulo 360 with
absolute value at most 180, and in particular `_angle_diff(179, −179) = −2`
(magnitude 2, not 358). -/
theorem c6_angle_diff_shortest_path :
    (∀ a b : ℝ, (∃ k : ℤ, angleDiff a b = (a - b) + 360 * k)
      ∧ |angleDiff a b| ≤ 180)
    ∧ angleDiff 179 (-179) = -2 := by
  constructor
  · intro a b
    constructor
    · obtain ⟨k1, hk1⟩ := wrapHigh_congr (a - b)
      obtain ⟨k2, hk2⟩ := wrapLow_congr (wrapHigh (a - b))
      exact ⟨k2 - k1, by rw [angleDiff, hk2, hk1]; push_cast; ring⟩
    · rw [abs_le]
      exact ⟨wrapLow_ge _, wrapLow_le _ (wrapHigh_le _)⟩
  · have h1 : wrapHigh ((179 : ℝ) - (-179)) = -2 := by
      rw [wrapHigh]
      norm_num
      rw [wrapHigh]
      norm_num
    rw [angleDiff, h1, wrapLow]
    norm_num

/-- Every default-completed entry of a byte list is a byte. -/
lemma getD_lt_256 (l : List ℕ) (hl : ∀ b ∈ l, b < 256) (k : ℕ) :
    l.getD k 0 < 256 := by
  by_cases hk : k < l.length
  · rw [List.getD_eq_getElem l 0 hk]
    exact hl _ (List.getElem_mem hk)
  · rw [List.getD_eq_default l 0 (le_of_not_lt hk)]
    norm_num

/-- A decoded little-endian signed 16-bit value lies in [−32768, 32767], so
its magnitude never exceeds `MAX_VALID_LSB`. -/
lemma abs_decodeI16_le (lo hi : ℕ) (hlo : lo < 256) (hhi : hi < 256) :
    |decodeI16 lo hi| ≤ 32768 := by
  simp only [decodeI16]
  split <;> (rw [abs_le]; constructor <;> omega)

/-- The handler's out-of-range rejection can never fire on values decoded
from actual bytes. -/
lemma outOfRange_decode3h (l : List ℕ) (hl : ∀ b ∈ l, b < 256) :
    outOfRange (decode3h l) = false := by
  have h := getD_lt_256 l hl
  unfold outOfRange decode3h
  simp only [decide_eq_false_iff_not]
  push_neg
  exact ⟨abs_decodeI16_le _ _ (h 0) (h 1), abs_decodeI16_le _ _ (h 2) (h 3),
    abs_decodeI16_le _ _ (h 4) (h 5)⟩

/-- A long-enough accelerometer payload always reaches the IMU update. -/
lemma handler_accel_eq (s : SensorState) (data : List ℕ)
    (hlen : 11 ≤ data.length) (hbytes : ∀ b ∈ data, b < 256) :
    notificationHandler s true data
      = accelUpdate s (decode3h (data.drop 1)) (decodeU32 (data.drop 7)) := by
  have hb : ∀ b ∈ data.drop 1, b < 256 :=
    fun b hb => hbytes b (List.drop_subset 1 data hb)
  have h1 := outOfRange_decode3h _ hb
  have h2 : outOfRange (decode3h data.tail) = false := by
    rw [← List.drop_one]; exact h1
  unfold notificationHandler
  simp [hlen, h1, h2]

/-- A long-enough gyroscope payload always reaches the IMU update. -/
lemma handler_gyro_eq (s : SensorState) (data : List ℕ)
    (hlen : 10 ≤ data.length) (hbytes : ∀ b ∈ data, b < 256) :
    notificationHandler s false data
      = gyroUpdate s (decode3h data) (decodeU32 (data.drop 6)) := by
  unfold notificationHandler
  simp [hlen, outOfRange_decode3h _ hbytes]

/-- C10: the out-of-range packet rejection is unreachable — values parsed
with `'<3h'` lie in [−32768, 32767], so the drop condition `|v| > 32768`
never holds; every accelerometer payload of length ≥ 11 and every gyroscope
payload of length ≥ 10 updates the IMU state, and only the too-short-payload
gate ever drops a packet. -/
theorem c10_range_rejection_unreachable (s : SensorState) (data : List ℕ)
    (hbytes : ∀ b ∈ data, b < 256) :
    (11 ≤ data.length → notificationHandler s true data
        = accelUpdate s (decode3h (data.drop 1)) (decodeU32 (data.drop 7))) ∧
    (10 ≤ data.length → notificationHandler s false data
        = gyroUpdate s (decode3h data) (decodeU32 (data.drop 6))) ∧
    (data.length < 11 → notificationHandler s true data = s) ∧
    (data.length < 10 → notificationHandler s false data = s) := by
  refine ⟨fun h => handler_accel_eq s data h hbytes,
          fun h => handler_gyro_eq s data h hbytes, fun h => ?_, fun h => ?_⟩
  · unfold notificationHandler
    simp [Nat.not_le.mpr h]
  · unfold notificationHandler
    simp [Nat.not_le.mpr h]

/-- C10 witness: a concrete 11-byte accelerometer payload is accepted and
applied. -/
theorem c10_range_rejection_unreachable_witness :
    notificationHandler initState true data11
      = accelUpdate initState (decode3h (data11.drop 1))
          (decodeU32 (data11.drop 7)) :=
  (c10_range_rejection_unreachable initState data11 (by decide)).1 (by decide)

/-- Sums of three squares are nonnegative. -/
lemma accelSq_nonneg (d : IMU) : 0 ≤ d.accelSq := by
  unfold IMU.accelSq; positivity

/-- The plausibility band as an integer statement on the squared
magnitude. -/
lemma inBand_iff_sqBound (d : IMU) :
    inBand d ↔ (2250000 < d.accelSq ∧ d.accelSq < 6760000) := by
  unfold inBand IMU.accelMag
  rw [Real.lt_sqrt (by norm_num : (0:ℝ) ≤ 1500),
    Real.sqrt_lt' (by norm_num : (0:ℝ) < 2600)]
  constructor
  · rintro ⟨h1, h2⟩
    norm_num at h1 h2
    exact ⟨by exact_mod_cast h1, by exact_mod_cast h2⟩
  · rintro ⟨h1, h2⟩
    constructor
    · norm_num
      exact_mod_cast h1
    · norm_num
      exact_mod_cast h2

/-- The plausibility band on the square-rooted magnitude is the decidable
integer band on the squared magnitude. -/
lemma inBand_iff_sq (d : IMU) : inBand d ↔ inBandSq d = true := by
  rw [inBand_iff_sqBound]
  unfold inBandSq
  simp

/-- C3: during `calibrate` an accelerometer sample is accepted exactly when
its squared magnitude is strictly between 1500² and 2600² (the 1 g
plausibility band); gyroscope samples are accepted unconditionally; each
offset is the `sorted[n // 2]` median of its accepted samples; with zero
accepted accelerometer samples the accelerometer offsets stay at their
just-reset zero. -/
theorem c3_calibration_acceptance_and_median (s : SensorState)
    (obs : List IMU) (hc : s.isConnected = true) :
    (∀ d : IMU, inBand d ↔ inBandSq d = true) ∧
    ((calibrate s obs).2.calibrationOffset.ax
        = sortedMid ((obs.filter inBandSq).map IMU.ax)
            (obs.filter inBandSq).length
      ∧ (calibrate s obs).2.calibrationOffset.ay
        = sortedMid ((obs.filter inBandSq).map IMU.ay)
            (obs.filter inBandSq).length
      ∧ (calibrate s obs).2.calibrationOffset.az
        = sortedMid ((obs.filter inBandSq).map IMU.az)
            (obs.filter inBandSq).length) ∧
    (obs.filter inBandSq = [] →
      (calibrate s obs).2.calibrationOffset.ax = 0
      ∧ (calibrate s obs).2.calibrationOffset.ay = 0
      ∧ (calibrate s obs).2.calibrationOffset.az = 0) ∧
    (obs ≠ [] →
      (calibrate s obs).2.calibrationOffset.gx
        = sortedMid (obs.map IMU.gx) obs.length
      ∧ (calibrate s obs).2.calibrationOffset.gy
        = sortedMid (obs.map IMU.gy) obs.length
      ∧ (calibrate s obs).2.calibrationOffset.gz
        = sortedMid (obs.map IMU.gz) obs.length) := by
  have hfil : obs.filter (fun d => decide (inBand d)) = obs.filter inBandSq := by
    apply List.filter_congr
    intro d _
    show decide (inBand d) = inBandSq d
    unfold inBandSq
    exact decide_eq_decide.mpr (inBand_iff_sqBound d)
  refine ⟨inBand_iff_sq, ?_, ?_, ?_⟩
  · unfold calibrate
    simp only [hc, Bool.true_eq_false, if_false, hfil]
    by_cases hn : (obs.filter inBandSq).length = 0
    · rw [List.length_eq_zero] at hn
      simp [hn, sortedMid]
    · simp [hn]
  · intro hemp
    unfold calibrate
    simp only [hc, Bool.true_eq_false, if_false, hfil, hemp]
    simp
  · intro hne
    unfold calibrate
    have hm : obs.length ≠ 0 := by
      simpa [List.length_eq_zero] using hne
    simp only [hc, Bool.true_eq_false, if_false]
    simp [hm]

/-- C3 witness: a connected sensor calibrated over a two-sample observation
list, one sample inside the plausibility band and one far outside it. -/
theorem c3_calibration_acceptance_and_median_witness :
    (inBand ⟨0, 0, 2048, 5, 6, 7, 0⟩ ↔ inBandSq ⟨0, 0, 2048, 5, 6, 7, 0⟩ = true)
    ∧ (calibrate { initState with isConnected := true }
        [⟨0, 0, 2048, 5, 6, 7, 0⟩, ⟨0, 0, 0, 1, 2, 3, 0⟩]).2.calibrationOffset.ax
      = sortedMid
          (([⟨0, 0, 2048, 5, 6, 7, 0⟩, ⟨0, 0, 0, 1, 2, 3, 0⟩].filter
            inBandSq).map IMU.ax)
          ([(⟨0, 0, 2048, 5, 6, 7, 0⟩ : IMU), ⟨0, 0, 0, 1, 2, 3, 0⟩].filter
            inBandSq).length := by
  have h := c3_calibration_acceptance_and_median
    { initState with isConnected := true }
    [⟨0, 0, 2048, 5, 6, 7, 0⟩, ⟨0, 0, 0, 1, 2, 3, 0⟩] rfl
  exact ⟨h.1 _, h.2.1.1⟩

/-- A squared magnitude of at least 1000² makes the validity gate pass. -/
lemma not_mag_lt_of_sq (d : IMU) (h : 1000000 ≤ d.accelSq) :
    ¬ d.accelMag < 1000 := by
  unfold IMU.accelMag
  rw [not_lt, Real.le_sqrt (by norm_num) (by exact_mod_cast accelSq_nonneg d)]
  norm_num
  exact_mod_cast h

/-- A squared magnitude below 1000² makes the validity gate fire. -/
lemma mag_lt_of_sq (d : IMU) (h : d.accelSq < 1000000) :
    d.accelMag < 1000 := by
  unfold IMU.accelMag
  rw [Real.sqrt_lt' (by norm_num : (0:ℝ) < 1000)]
  norm_num
  exact_mod_cast h

/-- The common tail of `get_shake_intensity` always returns a value in
[0, 1] and caches a value in [0, 1]. -/
lemma shakeCore_bounds (s : SensorState) (cur : ℤ × ℤ × ℤ)
    (q : ℕ) (b2 : List ℝ) :
    (0 ≤ (shakeCore s cur q b2).1 ∧ (shakeCore s cur q b2).1 ≤ 1)
    ∧ (0 ≤ (shakeCore s cur q b2).2.lastIntensity
       ∧ (shakeCore s cur q b2).2.lastIntensity ≤ 1) := by
  unfold shakeCore
  by_cases h : b2.sum / (b2.length : ℝ) < 0.3
  · rw [if_pos h]
    exact ⟨⟨le_refl 0, by norm_num⟩, ⟨le_refl 0, by norm_num⟩⟩
  · rw [if_neg h]
    have h3 : (0.3 : ℝ) ≤ b2.sum / (b2.length : ℝ) := not_lt.mp h
    have hnn : 0 ≤ (b2.sum / (b2.length : ℝ) - 0.3) / 0.3 :=
      div_nonneg (by linarith) (by norm_num)
    have hle : min 1 ((b2.sum / (b2.length : ℝ) - 0.3) / 0.3) ≤ 1 :=
      min_le_left _ _
    have hge : 0 ≤ min 1 ((b2.sum / (b2.length : ℝ) - 0.3) / 0.3) :=
      le_min (by norm_num) hnn
    exact ⟨⟨hge, hle⟩, ⟨hge, hle⟩⟩

/-- Bounds for the full buffer-update tail. -/
lemma shakeFinish_bounds (s : SensorState) (cur : ℤ × ℤ × ℤ) (dg : ℝ)
    (q : ℕ) (buf : List ℝ) :
    (0 ≤ (shakeFinish s cur dg q buf).1 ∧ (shakeFinish s cur dg q buf).1 ≤ 1)
    ∧ (0 ≤ (shakeFinish s cur dg q buf).2.lastIntensity
       ∧ (shakeFinish s cur dg q buf).2.lastIntensity ≤ 1) := by
  unfold shakeFinish
  exact shakeCore_bounds _ _ _ _

/-- The common tail of `get_shake_intensity` stores the current vector as
the previous one. -/
lemma shakeFinish_prev (s : SensorState) (cur : ℤ × ℤ × ℤ) (dg : ℝ)
    (q : ℕ) (buf : List ℝ) :
    (shakeFinish s cur dg q buf).2.prevAccel = some cur := by
  unfold shakeFinish shakeCore
  split_ifs <;> rfl

/-- C4: from every state whose cached intensity is in [0, 1] — an invariant
of every reachable state: it holds in the initial state and no operation
other than `get_shake_intensity` itself ever writes the cache —
`get_shake_intensity` returns a value in [0, 1] and leaves a cached
intensity in [0, 1], on every return path. -/
theorem c4_shake_intensity_unit_interval (s : SensorState) (b : Bool)
    (data : List ℕ) (obs : List IMU)
    (h0 : 0 ≤ s.lastIntensity) (h1 : s.lastIntensity ≤ 1) :
    ((0 ≤ (getShakeIntensity s).1 ∧ (getShakeIntensity s).1 ≤ 1)
     ∧ (0 ≤ (getShakeIntensity s).2.lastIntensity
        ∧ (getShakeIntensity s).2.lastIntensity ≤ 1))
    ∧ (0 ≤ initState.lastIntensity ∧ initState.lastIntensity ≤ 1)
    ∧ (notificationHandler s b data).lastIntensity = s.lastIntensity
    ∧ (calibrate s obs).2.lastIntensity = s.lastIntensity
    ∧ (getTiltAngle s).2.lastIntensity = s.lastIntensity := by
  refine ⟨?_, ⟨le_refl 0, zero_le_one⟩, ?_, ?_, ?_⟩
  case refine_2 =>
    cases b <;>
      simp [notificationHandler, accelUpdate, gyroUpdate,
        apply_ite SensorState.lastIntensity]
  case refine_3 =>
    unfold calibrate
    split_ifs <;> rfl
  case refine_4 =>
    simp only [getTiltAngle]
    split_ifs <;> rfl
  unfold getShakeIntensity
  by_cases hm : s.rawImu.accelMag < 1000
  · simp only [hm, if_true]
    exact ⟨⟨le_refl 0, by norm_num⟩, ⟨h0, h1⟩⟩
  · simp only [hm, if_false]
    cases hp : s.prevAccel with
    | none => exact shakeFinish_bounds _ _ _ _ _
    | some p =>
      by_cases hdup : currentAccel s = p
      · simp only [hdup, if_pos rfl]
        exact ⟨⟨h0, h1⟩, ⟨h0, h1⟩⟩
      · simp only [hdup, if_false]
        by_cases hout : 1.5 < deltaGOf (currentAccel s) p
        · simp only [hout, if_true]
          exact ⟨⟨h0, h1⟩, ⟨h0, h1⟩⟩
        · simp only [hout, if_false]
          by_cases hq : deltaGOf (currentAccel s) p < 0.15
          · simp only [hq, if_true]
            by_cases h5 : 5 ≤ s.quietCount + 1
            · simp only [h5, if_true]
              exact shakeFinish_bounds _ _ _ _ _
            · simp only [h5, if_false]
              exact shakeFinish_bounds _ _ _ _ _
          · simp only [hq, if_false]
            exact shakeFinish_bounds _ _ _ _ _

/-- C4 witness: the initial state (zero raw data, zero cached intensity). -/
theorem c4_shake_intensity_unit_interval_witness :
    (0 ≤ (getShakeIntensity initState).1 ∧ (getShakeIntensity initState).1 ≤ 1)
    ∧ (0 ≤ (getShakeIntensity initState).2.lastIntensity
       ∧ (getShakeIntensity initState).2.lastIntensity ≤ 1) :=
  (c4_shake_intensity_unit_interval initState true data11 [] (le_refl 0)
    zero_le_one).1

/-- On a valid sample identical to the stored previous one, the duplicate
gate returns the cached intensity and leaves the state untouched. -/
lemma shake_duplicate_pure (s : SensorState)
    (hm : ¬ s.rawImu.accelMag < 1000) (hp : s.prevAccel = some (currentAccel s)) :
    getShakeIntensity s = (s.lastIntensity, s) := by
  unfold getShakeIntensity
  rw [if_neg hm, hp]
  simp

/-- On every valid sample, `get_shake_intensity` stores the current raw
vector as the previous one — the call mutates the estimator state. -/
lemma shake_updates_prev (s : SensorState)
    (hm : ¬ s.rawImu.accelMag < 1000) :
    (getShakeIntensity s).2.prevAccel = some (currentAccel s) := by
  unfold getShakeIntensity
  rw [if_neg hm]
  cases hp : s.prevAccel with
  | none => exact shakeFinish_prev _ _ _ _ _
  | some p =>
    by_cases hdup : currentAccel s = p
    · simp only [hdup, if_true]
      exact hp
    · simp only [hdup, if_false]
      by_cases hout : 1.5 < deltaGOf (currentAccel s) p
      · simp only [hout, if_true]
      · simp only [hout, if_false]
        by_cases hq : deltaGOf (currentAccel s) p < 0.15
        · simp only [hq, if_true]
          by_cases h5 : 5 ≤ s.quietCount + 1
          · simp only [h5, if_true]
            exact shakeFinish_prev _ _ _ _ _
          · simp only [h5, if_false]
            exact shakeFinish_prev _ _ _ _ _
        · simp only [hq, if_false]
          exact shakeFinish_prev _ _ _ _ _

/-- C5 counterexample: on a concrete valid state with no previous sample,
`get_shake_intensity` changes the stored previous-accelerometer vector, so
the call does not leave the shake-estimator state unchanged. -/
theorem c5_counterexample_shake_read_mutates :
    (getShakeIntensity shakeProbeState).2.prevAccel
      ≠ shakeProbeState.prevAccel := by
  have hm : ¬ shakeProbeState.rawImu.accelMag < 1000 :=
    not_mag_lt_of_sq _ (by decide)
  rw [shake_updates_prev shakeProbeState hm]
  decide

/-- C5 (amended): the shake filtering runs on the consuming side —
`get_shake_intensity` itself updates the estimator state, storing the
current raw vector as the previous one on every valid sample; the call is a
pure cached read exactly on the duplicate path, when the raw vector equals
the stored previous one.  (The EMA smoothing and offset application do run
inside the notification callback.) -/
theorem c5_shake_read_is_not_pure (s : SensorState)
    (hv : 1000000 ≤ s.rawImu.accelSq) :
    (s.prevAccel = some (currentAccel s) →
      getShakeIntensity s = (s.lastIntensity, s)) ∧
    (getShakeIntensity s).2.prevAccel = some (currentAccel s) := by
  have hm := not_mag_lt_of_sq _ hv
  exact ⟨fun hp => shake_duplicate_pure s hm hp, shake_updates_prev s hm⟩

/-- C5 witness: a valid duplicate sample is a pure cached read, and the
previous-vector cache holds the current vector afterwards. -/
theorem c5_shake_read_is_not_pure_witness :
    (({ shakeProbeState with prevAccel := some (2048, 0, 0) } :
        SensorState).prevAccel
      = some (currentAccel { shakeProbeState with prevAccel := some (2048, 0, 0) }) →
      getShakeIntensity { shakeProbeState with prevAccel := some (2048, 0, 0) }
        = (({ shakeProbeState with prevAccel := some (2048, 0, 0) } :
            SensorState).lastIntensity,
           { shakeProbeState with prevAccel := some (2048, 0, 0) })) ∧
    (getShakeIntensity { shakeProbeState with prevAccel := some (2048, 0, 0) }
      ).2.prevAccel
      = some (currentAccel { shakeProbeState with prevAccel := some (2048, 0, 0) }) :=
  c5_shake_read_is_not_pure _ (by decide)

/-- Below the validity threshold, the raw tilt computation returns the
sentinel. -/
lemma rawTilt_sentinel_below (d : IMU) (h : d.accelSq < 1000000) :
    rawTiltOf d = (0, 0) := by
  unfold rawTiltOf
  rw [if_pos (mag_lt_of_sq d h)]

/-- On the sentinel, `get_tilt_angle` returns the cached last valid relative
tilt and leaves the state unchanged. -/
lemma getTilt_sentinel (s : SensorState) (h : rawTiltOf s.rawImu = (0, 0)) :
    getTiltAngle s = (s.lastValidTilt, s) := by
  simp only [getTiltAngle, h]
  norm_num

/-- On a raw tilt that is not exactly `(0, 0)`, `get_tilt_angle` returns the
shortest-path differences from the neutral angles and caches them. -/
lemma getTilt_valid (s : SensorState)
    (h : ¬((rawTiltOf s.rawImu).1 = 0 ∧ (rawTiltOf s.rawImu).2 = 0)) :
    getTiltAngle s
      = ((angleDiff (rawTiltOf s.rawImu).1 s.neutralRoll,
          angleDiff (rawTiltOf s.rawImu).2 s.neutralPitch),
         { s with lastValidTilt :=
            (angleDiff (rawTiltOf s.rawImu).1 s.neutralRoll,
             angleDiff (rawTiltOf s.rawImu).2 s.neutralPitch) }) := by
  simp only [getTiltAngle]
  rw [if_neg h]

/-- The raw tilt of a flat 1 g reading (gravity on +z) is exactly `(0, 0)`,
even though the reading is valid. -/
lemma rawTilt_flat : rawTiltOf ⟨0, 0, 2048, 0, 0, 0, 0⟩ = (0, 0) := by
  unfold rawTiltOf
  rw [if_neg (not_mag_lt_of_sq _ (by decide))]
  norm_num

/-- The raw tilt of an upside-down 1 g reading (gravity on −z) is
`(180, 180)`. -/
lemma rawTilt_upside_down : rawTiltOf ⟨0, 0, -2048, 0, 0, 0, 0⟩ = (180, 180) := by
  unfold rawTiltOf
  rw [if_neg (not_mag_lt_of_sq _ (by decide))]
  norm_num
  rw [mul_comm Real.pi 180, mul_div_assoc, div_self Real.pi_ne_zero, mul_one]

/-- The shortest-path difference from 0 to a neutral of 90 degrees. -/
lemma angleDiff_zero_ninety : angleDiff 0 (90 : ℝ) = -90 := by
  unfold angleDiff
  rw [show (0 : ℝ) - 90 = -90 by norm_num]
  rw [wrapHigh]
  norm_num
  rw [wrapLow]
  norm_num

/-- C7 counterexample: a perfectly flat, valid 1 g reading (magnitude 2048 ≥
1000) also produces the `(0, 0)` sentinel, so `get_tilt_angle` returns the
cached `(7, 7)` instead of the shortest-path difference from the stored
neutral angles, and does not update the cache — the claim's identification
of the sentinel with sub-threshold magnitude, and its description of every
valid reading, fail here. -/
theorem c7_counterexample_flat_valid_reading :
    (¬ tiltProbeState.rawImu.accelMag < 1000) ∧
    (getTiltAngle tiltProbeState).1 = (7, 7) ∧
    ((7, 7) : ℝ × ℝ) ≠ (angleDiff 0 tiltProbeState.neutralRoll,
                        angleDiff 0 tiltProbeState.neutralPitch) ∧
    (getTiltAngle tiltProbeState).2 = tiltProbeState := by
  have hraw : tiltProbeState.rawImu = (⟨0, 0, 2048, 0, 0, 0, 0⟩ : IMU) := rfl
  have hsen : rawTiltOf tiltProbeState.rawImu = (0, 0) := by
    rw [hraw, rawTilt_flat]
  have hres := getTilt_sentinel tiltProbeState hsen
  refine ⟨not_mag_lt_of_sq _ (by decide), ?_, ?_, ?_⟩
  · rw [hres]
    rfl
  · show ((7, 7) : ℝ × ℝ) ≠ (angleDiff 0 90, angleDiff 0 0)
    intro heq
    have h1 := congrArg Prod.fst heq
    rw [angleDiff_zero_ninety] at h1
    norm_num at h1
  · rw [hres]

/-- C7 (amended): whenever the raw tilt computation yields the sentinel
`(0, 0)` — in particular whenever the accelerometer magnitude is below the
validity threshold, but also for a perfectly flat valid reading —
`get_tilt_angle` returns the cached last valid relative tilt and leaves the
state unchanged; for a reading whose raw tilt is not exactly `(0, 0)` it
returns the shortest-path differences of the raw roll/pitch from the stored
neutral angles and updates the cache with that pair. -/
theorem c7_tilt_sentinel_fallback (s t : SensorState)
    (hs : s.rawImu.accelSq < 1000000)
    (ht : ¬((rawTiltOf t.rawImu).1 = 0 ∧ (rawTiltOf t.rawImu).2 = 0)) :
    getTiltAngle s = (s.lastValidTilt, s) ∧
    getTiltAngle t
      = ((angleDiff (rawTiltOf t.rawImu).1 t.neutralRoll,
          angleDiff (rawTiltOf t.rawImu).2 t.neutralPitch),
         { t with lastValidTilt :=
            (angleDiff (rawTiltOf t.rawImu).1 t.neutralRoll,
             angleDiff (rawTiltOf t.rawImu).2 t.neutralPitch) }) :=
  ⟨getTilt_sentinel s (rawTilt_sentinel_below _ hs), getTilt_valid t ht⟩

/-- C7 witness: the zero initial state is below the threshold and falls back
to the cache; the upside-down probe is valid and non-sentinel, so its
relative tilt is computed and cached. -/
theorem c7_tilt_sentinel_fallback_witness :
    getTiltAngle initState = (initState.lastValidTilt, initState) ∧
    getTiltAngle tiltValidProbe
      = ((angleDiff (rawTiltOf tiltValidProbe.rawImu).1 tiltValidProbe.neutralRoll,
          angleDiff (rawTiltOf tiltValidProbe.rawImu).2 tiltValidProbe.neutralPitch),
         { tiltValidProbe with lastValidTilt :=
            (angleDiff (rawTiltOf tiltValidProbe.rawImu).1 tiltValidProbe.neutralRoll,
             angleDiff (rawTiltOf tiltValidProbe.rawImu).2 tiltValidProbe.neutralPitch) }) :=
  c7_tilt_sentinel_fallback initState tiltValidProbe (by decide)
    (by rw [show tiltValidProbe.rawImu = (⟨0, 0, -2048, 0, 0, 0, 0⟩ : IMU) from rfl,
          rawTilt_upside_down]
        norm_num [Real.pi_ne_zero])

/-- C8: per accelerometer axis, the first sample after a (re)start seeds the
EMA filter with the raw value directly; every later sample blends
`0.15·raw + 0.85·previous`; and the calibration offset is subtracted from
the truncated smoothed value after smoothing — the filter state itself never
involves the offset. -/
theorem c8_ema_seed_blend_offset_order (s : SensorState) (data : List ℕ)
    (hlen : 11 ≤ data.length) (hbytes : ∀ b ∈ data, b < 256) :
    (s.emaInitialized = false →
      (notificationHandler s true data).filteredAccel
        = (((decode3h (data.drop 1)).1 : ℚ), ((decode3h (data.drop 1)).2.1 : ℚ),
           ((decode3h (data.drop 1)).2.2 : ℚ))) ∧
    (s.emaInitialized = true →
      (notificationHandler s true data).filteredAccel
        = (0.15 * ((decode3h (data.drop 1)).1 : ℚ) + 0.85 * s.filteredAccel.1,
           0.15 * ((decode3h (data.drop 1)).2.1 : ℚ) + 0.85 * s.filteredAccel.2.1,
           0.15 * ((decode3h (data.drop 1)).2.2 : ℚ) + 0.85 * s.filteredAccel.2.2)) ∧
    ((notificationHandler s true data).emaInitialized = true) ∧
    ((notificationHandler s true data).imu.ax
        = pyTruncQ (notificationHandler s true data).filteredAccel.1
          - s.calibrationOffset.ax
      ∧ (notificationHandler s true data).imu.ay
        = pyTruncQ (notificationHandler s true data).filteredAccel.2.1
          - s.calibrationOffset.ay
      ∧ (notificationHandler s true data).imu.az
        = pyTruncQ (notificationHandler s true data).filteredAccel.2.2
          - s.calibrationOffset.az) := by
  rw [handler_accel_eq s data hlen hbytes]
  unfold accelUpdate
  cases hema : s.emaInitialized with
  | false =>
    refine ⟨fun _ => ?_, fun hcon => Bool.noConfusion hcon, rfl,
      rfl, rfl, rfl⟩
    simp
  | true =>
    refine ⟨fun hcon => Bool.noConfusion hcon, fun _ => ?_, rfl,
      rfl, rfl, rfl⟩
    simp only [Bool.true_eq_false, if_false]
    unfold emaStep
    norm_num

/-- C8 witness: the concrete payload `data11` on the uninitialized initial
state seeds the filter with the decoded raw values (1, 2, 3). -/
theorem c8_ema_seed_blend_offset_order_witness :
    (notificationHandler initState true data11).filteredAccel
      = ((1 : ℚ), 2, 3) := by
  have h := (c8_ema_seed_blend_offset_order initState data11 (by decide)
    (by decide)).1 rfl
  rw [h]
  norm_num [decode3h, decodeI16, data11]

/-- C9 (amended): the code's Fourier sub-score is exactly the spec's energy
concentration formula with the `1e-6` denominator regularizer (and 0 below
10 points). -/
theorem c9_fourier_concentration_with_regularizer (points : List (ℤ × ℤ)) :
    CircleSimilarityScorer.calculate_fourier_descriptor_score points
      = CircleSimilarityScorer.specFourierConcentrationEps points := by
  unfold CircleSimilarityScorer.calculate_fourier_descriptor_score
    CircleSimilarityScorer.specFourierConcentrationEps
  by_cases h : points.length < 10
  · rw [if_pos h, if_pos h]
  · rw [if_neg h, if_neg h]
    cases hfd : CircleSimilarityScorer.compute_fourier_descriptors points 10 with
    | none => rfl
    | some fd =>
      simp only []
      congr 1
      ring

end Theorems

section FourierCounterexample

open Bboni CVScoring CircleSimilarityScorer Complex

/-- The complex form of `pts12` is the twelve powers of `i`. -/
lemma pts12C_eq : pts12.map toC
    = [1, I, -1, -I, 1, I, -1, -I, 1, I, -1, -I] := by
  simp [pts12, toC]

/-- Entry `k` of the complex form of `pts12` is `i^k`. -/
lemma getD_pts12C (k : ℕ) (hk : k < 12) :
    (pts12.map toC).getD k 0 = I ^ k := by
  rw [pts12C_eq]
  interval_cases k <;> simp [pow_succ, Complex.I_mul_I]

/-- The DFT of `pts12` as a geometric sum of powers of
`i · exp(−2πi·m/12)`. -/
lemma dftCoeff_pts12_geom (m : ℕ) :
    dftCoeff (pts12.map toC) m
      = ∑ k ∈ Finset.range 12,
          (I * Complex.exp (-(2 * (Real.pi : ℂ) * I) * m / 12)) ^ k := by
  unfold dftCoeff
  rw [show (pts12.map toC).length = 12 from rfl]
  apply Finset.sum_congr rfl
  intro k hk
  rw [getD_pts12C k (Finset.mem_range.mp hk), mul_pow]
  congr 1
  rw [← Complex.exp_nat_mul]
  congr 1
  push_cast
  ring

/-- The base of the geometric sum is a twelfth root of unity. -/
lemma zc_pow_twelve (m : ℕ) :
    (I * Complex.exp (-(2 * (Real.pi : ℂ) * I) * m / 12)) ^ 12 = 1 := by
  have hI4 : I ^ 4 = 1 := by
    rw [show (4 : ℕ) = 2 * 2 from rfl, pow_mul, Complex.I_sq]
    norm_num
  have hI : I ^ 12 = 1 := by
    rw [show (12 : ℕ) = 4 * 3 from rfl, pow_mul, hI4, one_pow]
  rw [mul_pow, hI, one_mul, ← Complex.exp_nat_mul,
    show ((12 : ℕ) : ℂ) * (-(2 * (Real.pi : ℂ) * I) * m / 12)
      = ((-(m : ℤ) : ℤ) : ℂ) * (2 * (Real.pi : ℂ) * I) from by push_cast; ring]
  exact Complex.exp_int_mul_two_pi_mul_I (-(m : ℤ))

/-- `exp(−(π/2)·i) = −i`. -/
lemma exp_neg_pi_div_two_mul_I :
    Complex.exp (-((Real.pi : ℂ) / 2) * I) = -I := by
  rw [Complex.exp_mul_I, Complex.cos_neg, Complex.sin_neg,
    Complex.cos_pi_div_two, Complex.sin_pi_div_two]
  ring

/-- At harmonic 3 the geometric base is 1. -/
lemma zc_three :
    I * Complex.exp (-(2 * (Real.pi : ℂ) * I) * ((3 : ℕ) : ℂ) / 12) = 1 := by
  rw [show -(2 * (Real.pi : ℂ) * I) * ((3 : ℕ) : ℂ) / 12
      = -((Real.pi : ℂ) / 2) * I from by push_cast; ring]
  rw [exp_neg_pi_div_two_mul_I]
  simp [Complex.I_mul_I]

/-- Away from harmonic 3 the geometric base is a nontrivial root of
unity. -/
lemma zc_ne_one (m : ℕ) (hm : m < 12) (hne : m ≠ 3) :
    I * Complex.exp (-(2 * (Real.pi : ℂ) * I) * m / 12) ≠ 1 := by
  intro h
  have hv : Complex.exp (-(2 * (Real.pi : ℂ) * I) * m / 12) = -I := by
    have h2 : I⁻¹ * (I * Complex.exp (-(2 * (Real.pi : ℂ) * I) * m / 12))
        = I⁻¹ * 1 := by rw [h]
    rwa [← mul_assoc, inv_mul_cancel₀ Complex.I_ne_zero, one_mul, mul_one,
      Complex.inv_I] at h2
  rw [← exp_neg_pi_div_two_mul_I, Complex.exp_eq_exp_iff_exists_int] at hv
  obtain ⟨n, hn⟩ := hv
  have h3 : ((-2 * Real.pi * m / 12 : ℝ) : ℂ) * I
      = ((-(Real.pi / 2) + n * (2 * Real.pi) : ℝ) : ℂ) * I := by
    push_cast
    linear_combination hn
  have h4 := mul_right_cancel₀ Complex.I_ne_zero h3
  have hre : (-2 * Real.pi * (m : ℝ) / 12 : ℝ)
      = -(Real.pi / 2) + (n : ℝ) * (2 * Real.pi) := by exact_mod_cast h4
  have h6 : (-2 : ℝ) * Real.pi * m = -6 * Real.pi + n * (24 * Real.pi) := by
    linear_combination (12 : ℝ) * hre
  have h7 : Real.pi * ((-2 : ℝ) * m) = Real.pi * (-6 + n * 24) := by
    linear_combination h6
  have h8 := mul_left_cancel₀ Real.pi_ne_zero h7
  have h9 : (-2 : ℤ) * m = -6 + n * 24 := by exact_mod_cast h8
  omega

/-- A geometric sum over a full period of a nontrivial root of unity
vanishes. -/
lemma sum_z_pow_eq_zero (z : ℂ) (h12 : z ^ 12 = 1) (hne : z ≠ 1) :
    ∑ k ∈ Finset.range 12, z ^ k = 0 := by
  rw [geom_sum_eq hne, h12, sub_self, zero_div]

/-- The DFT of `pts12` is 12 at harmonic 3 and 0 at every other harmonic
below 12. -/
lemma dft12 (m : ℕ) (hm : m < 12) :
    dftCoeff (pts12.map toC) m = if m = 3 then 12 else 0 := by
  rw [dftCoeff_pts12_geom]
  by_cases h3 : m = 3
  · subst h3
    rw [if_pos rfl]
    rw [zc_three]
    simp
  · rw [if_neg h3]
    exact sum_z_pow_eq_zero _ (zc_pow_twelve m) (zc_ne_one m hm h3)

/-- The FFT list of `pts12` written entrywise. -/
lemma fftList_pts12 : fftList (pts12.map toC)
    = [dftCoeff (pts12.map toC) 0, dftCoeff (pts12.map toC) 1,
       dftCoeff (pts12.map toC) 2, dftCoeff (pts12.map toC) 3,
       dftCoeff (pts12.map toC) 4, dftCoeff (pts12.map toC) 5,
       dftCoeff (pts12.map toC) 6, dftCoeff (pts12.map toC) 7,
       dftCoeff (pts12.map toC) 8, dftCoeff (pts12.map toC) 9,
       dftCoeff (pts12.map toC) 10, dftCoeff (pts12.map toC) 11] := by
  unfold fftList
  rw [show (pts12.map toC).length = 12 from rfl]
  rfl

/-- The Fourier descriptors of `pts12`: all spectral energy sits in
harmonic 3, and no scale normalization happens since harmonic 1 vanishes. -/
lemma fd_pts12 : compute_fourier_descriptors pts12 10
    = some [0, 0, 12, 0, 0, 0, 0, 0, 0, 0] := by
  have hd1 : dftCoeff (pts12.map toC) 1 = 0 := by
    rw [dft12 1 (by norm_num)]; norm_num
  have hd2 : dftCoeff (pts12.map toC) 2 = 0 := by
    rw [dft12 2 (by norm_num)]; norm_num
  have hd3 : dftCoeff (pts12.map toC) 3 = 12 := by
    rw [dft12 3 (by norm_num)]; norm_num
  have hd4 : dftCoeff (pts12.map toC) 4 = 0 := by
    rw [dft12 4 (by norm_num)]; norm_num
  have hd5 : dftCoeff (pts12.map toC) 5 = 0 := by
    rw [dft12 5 (by norm_num)]; norm_num
  have hd6 : dftCoeff (pts12.map toC) 6 = 0 := by
    rw [dft12 6 (by norm_num)]; norm_num
  have hd7 : dftCoeff (pts12.map toC) 7 = 0 := by
    rw [dft12 7 (by norm_num)]; norm_num
  have hd8 : dftCoeff (pts12.map toC) 8 = 0 := by
    rw [dft12 8 (by norm_num)]; norm_num
  have hd9 : dftCoeff (pts12.map toC) 9 = 0 := by
    rw [dft12 9 (by norm_num)]; norm_num
  have hd10 : dftCoeff (pts12.map toC) 10 = 0 := by
    rw [dft12 10 (by norm_num)]; norm_num
  unfold compute_fourier_descriptors
  rw [if_neg (by decide : ¬ pts12.length < 4), fftList_pts12]
  unfold normalizeFourier
  simp only [List.set_cons_zero, List.getD_cons_succ, List.getD_cons_zero]
  rw [hd1, map_zero]
  rw [if_neg (lt_irrefl 0)]
  simp only [List.drop_succ_cons, List.drop_zero, List.take_succ_cons,
    List.take_zero, List.map_cons, List.map_nil]
  rw [hd2, hd3, hd4, hd5, hd6, hd7, hd8, hd9, hd10]
  norm_num

/-- C9 counterexample: on the 12-point trajectory `pts12`, whose descriptor
energy is entirely in harmonic 3, the code's score is
`14400/(144 + 10⁻⁶) < 100` while the claimed exact energy fraction gives
exactly 100 — the `1e-6` regularizer shifts the score, so the claimed
equality fails. -/
theorem c9_counterexample_regularizer_shifts_score :
    CircleSimilarityScorer.calculate_fourier_descriptor_score pts12
      ≠ CircleSimilarityScorer.specFourierConcentration pts12 := by
  unfold CircleSimilarityScorer.calculate_fourier_descriptor_score
    CircleSimilarityScorer.specFourierConcentration
  rw [if_neg (by decide : ¬ pts12.length < 10),
    if_neg (by decide : ¬ pts12.length < 10), fd_pts12]
  simp only [List.take_succ_cons, List.take_zero, List.map_cons, List.map_nil,
    List.sum_cons, List.sum_nil]
  simp only [clipR, min_def, max_def]
  norm_num

end FourierCounterexample
